import Mathlib

/- Shallow embedding of `src/server.js`: an Express server that serves an
   installation manifest with fixed headers and orchestrates device
   registration and build triggering around an external CLI tool, keeping
   its state in an in-memory `Set` and `Map`. Subprocess outcomes are
   passed in as oracle values; each handler returns the new state, the
   response it sends, and whether it invoked the subprocess. -/

namespace ClerkyServer

/-- Outcome of one `execAsync` subprocess invocation: success carries the
captured stdout and stderr; failure carries `error.message` and
`error.stderr`. -/
inductive ExecResult where
  | ok (stdout stderr : String)
  | err (message stderr : String)
deriving DecidableEq, Repr

/-- A `pendingBuilds` entry: `{ buildId, status, startedAt }`. -/
structure BuildRecord where
  buildId : String
  status : String
  startedAt : String
deriving DecidableEq, Repr

/-- In-memory server state: `registeredDevices` (a `Set`) and
`pendingBuilds` (a `Map` from udid to build record). -/
structure ServerState where
  registeredDevices : List String
  pendingBuilds : List (String × BuildRecord)
deriving DecidableEq, Repr

/-- State at process start: `new Set()` and `new Map()`, both empty. -/
def initialState : ServerState := ⟨[], []⟩

/-- JS `Set.prototype.add`: insert the element unless already present. -/
def setAdd (s : List String) (u : String) : List String :=
  if u ∈ s then s else s ++ [u]

/-- JS `Map.prototype.get` as an association-list lookup
(`Map.prototype.has` is `(mapGet m k).isSome`). -/
def mapGet (m : List (String × BuildRecord)) (k : String) : Option BuildRecord :=
  match m with
  | [] => none
  | (k', v) :: rest => if k = k' then some v else mapGet rest k

/-- JS `Map.prototype.set`: replace the binding if the key is present,
otherwise append a new binding. -/
def mapSet (m : List (String × BuildRecord)) (k : String) (v : BuildRecord) :
    List (String × BuildRecord) :=
  if (mapGet m k).isSome then
    m.map (fun p => if p.1 = k then (k, v) else p)
  else m ++ [(k, v)]

/-- Whether `sub` occurs at the head of `l`. -/
def startsWithChars : List Char → List Char → Bool
  | [], _ => true
  | _ :: _, [] => false
  | a :: as, b :: bs => a == b && startsWithChars as bs

/-- Whether `sub` occurs anywhere in `l`. -/
def containsChars (sub : List Char) : List Char → Bool
  | [] => startsWithChars sub []
  | c :: rest => startsWithChars sub (c :: rest) || containsChars sub rest

/-- JS `String.prototype.includes`: substring containment. -/
def jsIncludes (s sub : String) : Bool :=
  containsChars sub.toList s.toList

/-- JS `udid.slice(-8)`: the last 8 characters (the whole string if
shorter). -/
def sliceLast8 (s : String) : String :=
  ⟨s.toList.drop (s.toList.length - 8)⟩

/-- `` deviceName || `iPhone-${udid.slice(-8)}` ``: the display name sent to
the enrollment command (`deviceName` is falsy when absent or empty). -/
def deviceNameSafe (deviceName : Option String) (udid : String) : String :=
  match deviceName with
  | some n => if n.isEmpty then "iPhone-" ++ sliceLast8 udid else n
  | none => "iPhone-" ++ sliceLast8 udid

/-- A character matched by the regex class `[a-zA-Z0-9-]`. -/
def isTokenChar (c : Char) : Bool :=
  (('a' ≤ c && c ≤ 'z') || ('A' ≤ c && c ≤ 'Z') || ('0' ≤ c && c ≤ '9') || c == '-')

/-- The literal part of the pattern in `stdout.match(.+ build ID .+)`,
lowered: ten characters, `build id: `. -/
def buildIdPat : List Char := "build id: ".toList

/-- Whether the case-insensitive literal `build ID: ` followed by at least
one token character occurs at the head of `l`. -/
def matchesAt (l : List Char) : Bool :=
  ((l.take 10).map Char.toLower == buildIdPat) &&
  (match l.drop 10 with
   | c :: _ => isTokenChar c
   | [] => false)

/-- Leftmost match of the case-insensitive pattern: the capture group
(the maximal run of token characters after the literal) of the first
match, if any. -/
def scanBuildId : List Char → Option (List Char)
  | [] => none
  | c :: rest =>
    if matchesAt (c :: rest) then some (((c :: rest).drop 10).takeWhile isTokenChar)
    else scanBuildId rest

/-- The `buildId` extraction in the trigger handler: first match of the
case-insensitive `build ID: <token>` pattern in stdout, else the sentinel
`"unknown"`. -/
def extractBuildId (stdout : String) : String :=
  match scanBuildId stdout.toList with
  | some t => ⟨t⟩
  | none => "unknown"

/-- Responses sent by `POST /api/register-device`. -/
inductive RegisterResponse where
  | validationError
  | alreadyRegisteredResp (udid : String)
  | registeredResp (udid output : String)
  | absorbedResp (udid : String)
  | toolErrorResp (details stderr : String)
deriving DecidableEq, Repr

/-- HTTP status code of a register response (`res.json` defaults to 200). -/
def RegisterResponse.httpStatus : RegisterResponse → Nat
  | .validationError => 400
  | .toolErrorResp _ _ => 500
  | _ => 200

/-- The `success` field of a register response body. -/
def RegisterResponse.success : RegisterResponse → Bool
  | .validationError => false
  | .toolErrorResp _ _ => false
  | _ => true

/-- The `alreadyRegistered` field of a register response body
(`none` = field absent). -/
def RegisterResponse.alreadyRegistered : RegisterResponse → Option Bool
  | .alreadyRegisteredResp _ => some true
  | .absorbedResp _ => some true
  | _ => none

/-- `POST /api/register-device`. `udid`/`deviceName` are the body fields
(`none` = absent); `exec` is the subprocess oracle, consumed only if the
handler reaches `execAsync`. The last component is the display name passed
to the enrollment command, `none` when no subprocess is invoked. -/
def registerDevice (st : ServerState) (udid deviceName : Option String)
    (exec : ExecResult) : ServerState × RegisterResponse × Option String :=
  match udid with
  | none => (st, .validationError, none)
  | some u =>
    if u.isEmpty then (st, .validationError, none)
    else if u ∈ st.registeredDevices then
      (st, .alreadyRegisteredResp u, none)
    else
      match exec with
      | .ok stdout _ =>
        ({ st with registeredDevices := setAdd st.registeredDevices u },
          .registeredResp u stdout, some (deviceNameSafe deviceName u))
      | .err msg stderr =>
        if jsIncludes msg "already registered" || jsIncludes msg "already exists" then
          ({ st with registeredDevices := setAdd st.registeredDevices u },
            .absorbedResp u, some (deviceNameSafe deviceName u))
        else
          (st, .toolErrorResp msg stderr, some (deviceNameSafe deviceName u))

/-- Responses sent by `POST /api/trigger-build`. -/
inductive TriggerResponse where
  | validationError
  | alreadyPendingResp (buildId status : String)
  | triggeredResp (buildId status : String)
  | toolErrorResp (details stderr : String)
deriving DecidableEq, Repr

/-- HTTP status code of a trigger response. -/
def TriggerResponse.httpStatus : TriggerResponse → Nat
  | .validationError => 400
  | .toolErrorResp _ _ => 500
  | _ => 200

/-- The `success` field of a trigger response body. -/
def TriggerResponse.success : TriggerResponse → Bool
  | .validationError => false
  | .toolErrorResp _ _ => false
  | _ => true

/-- `POST /api/trigger-build`. `now` is `new Date().toISOString()`; the
`Bool` records whether the subprocess was invoked. -/
def triggerBuild (st : ServerState) (udid : Option String) (exec : ExecResult)
    (now : String) : ServerState × TriggerResponse × Bool :=
  match udid with
  | none => (st, .validationError, false)
  | some u =>
    if u.isEmpty then (st, .validationError, false)
    else
      match mapGet st.pendingBuilds u with
      | some info => (st, .alreadyPendingResp info.buildId info.status, false)
      | none =>
        match exec with
        | .ok stdout _ =>
          let bid := extractBuildId stdout
          let entry : BuildRecord := ⟨bid, "pending", now⟩
          ({ st with pendingBuilds := mapSet st.pendingBuilds u entry },
            .triggeredResp bid "pending", true)
        | .err msg stderr => (st, .toolErrorResp msg stderr, true)

/-- Responses sent by `GET /api/build-status/:udid` (always HTTP 200). -/
inductive StatusResponse where
  | notFoundResp
  | foundResp (buildId status startedAt : String)
deriving DecidableEq, Repr

/-- HTTP status code of a build-status response: `res.json` on both
branches, hence 200. -/
def StatusResponse.httpStatus : StatusResponse → Nat := fun _ => 200

/-- The `success` field of a build-status response body. -/
def StatusResponse.success : StatusResponse → Bool
  | .notFoundResp => false
  | .foundResp _ _ _ => true

/-- `GET /api/build-status/:udid`: a read of `pendingBuilds` returning the
(unchanged) state and the response. -/
def getStatus (st : ServerState) (udid : String) : ServerState × StatusResponse :=
  match mapGet st.pendingBuilds udid with
  | none => (st, .notFoundResp)
  | some info => (st, .foundResp info.buildId info.status info.startedAt)

/-- The five headers the `/manifest.plist` handler sets before writing any
body. -/
def manifestHeaders : List (String × String) :=
  [("Content-Type", "application/xml; charset=utf-8"),
   ("Cache-Control", "no-cache, no-store, must-revalidate"),
   ("Pragma", "no-cache"),
   ("Expires", "0"),
   ("Access-Control-Allow-Origin", "*")]

/-- An HTTP response of the manifest endpoint: headers, status, body. -/
structure ManifestResponse where
  headers : List (String × String)
  status : Nat
  body : String
deriving DecidableEq, Repr

/-- `GET /manifest.plist`: `fileExists` models `fs.existsSync`,
`readResult` models `fs.readFileSync` (`error` = thrown exception). The
headers are set first, before the existence check and the read. -/
def manifestHandler (fileExists : Bool) (readResult : Except String String) :
    ManifestResponse :=
  if !fileExists then ⟨manifestHeaders, 404, "manifest.plist not found"⟩
  else
    match readResult with
    | .ok content => ⟨manifestHeaders, 200, content⟩
    | .error _ => ⟨manifestHeaders, 500, "Error reading manifest.plist"⟩

/-- One inbound request to a stateful endpoint, with its oracle inputs. -/
inductive Op where
  | register (udid deviceName : Option String) (exec : ExecResult)
  | trigger (udid : Option String) (exec : ExecResult) (now : String)
  | status (udid : String)
deriving DecidableEq, Repr

/-- The state after processing one request. -/
def step (st : ServerState) : Op → ServerState
  | .register u n e => (registerDevice st u n e).1
  | .trigger u e t => (triggerBuild st u e t).1
  | .status u => (getStatus st u).1

/-- The state after a sequence of requests. -/
def run (st : ServerState) (ops : List Op) : ServerState :=
  ops.foldl step st

/-- Shape of every stored or returned `buildId`: the sentinel `"unknown"`
or a nonempty string of alphanumerics and hyphens. -/
def buildIdShape (b : String) : Prop :=
  b = "unknown" ∨ (b.toList ≠ [] ∧ ∀ c ∈ b.toList, isTokenChar c = true)

/-- Spec-side reading of the extraction pattern: the output contains, at
some position, characters that lower to `build id: ` followed by at least
one alphanumeric-or-hyphen character. -/
def specHasBuildIdMatch (s : String) : Prop :=
  ∃ pre mid c r, s.toList = pre ++ mid ++ (c :: r) ∧
    mid.map Char.toLower = buildIdPat ∧ isTokenChar c = true

/-- A trigger response reports `status` `"pending"` and a well-shaped
`buildId` whenever it is a success response. -/
def TriggerResponse.pendingShaped : TriggerResponse → Prop
  | .alreadyPendingResp bid s2 => s2 = "pending" ∧ buildIdShape bid
  | .triggeredResp bid s2 => s2 = "pending" ∧ buildIdShape bid
  | _ => True

/-- A status response reports `status` `"pending"` and a well-shaped
`buildId` whenever it is a success response. -/
def StatusResponse.pendingShaped : StatusResponse → Prop
  | .foundResp bid s2 _ => s2 = "pending" ∧ buildIdShape bid
  | .notFoundResp => True

/-- Structural invariant of the server state: stored identifiers are
nonempty, the build table has no duplicate keys, and every stored record
is pending with a well-shaped `buildId`. -/
def WF (st : ServerState) : Prop :=
  (∀ u ∈ st.registeredDevices, u.isEmpty = false) ∧
  (∀ p ∈ st.pendingBuilds, p.1.isEmpty = false) ∧
  (st.pendingBuilds.map Prod.fst).Nodup ∧
  (∀ p ∈ st.pendingBuilds, p.2.status = "pending" ∧ buildIdShape p.2.buildId)

/-! ### Lemmas about the state primitives -/

lemma mem_setAdd_self (s : List String) (u : String) : u ∈ setAdd s u := by
  unfold setAdd
  split
  · assumption
  · exact List.mem_append_right s (List.mem_singleton.mpr rfl)

lemma mem_setAdd_of_mem {s : List String} {u : String} (x : String) (h : u ∈ s) :
    u ∈ setAdd s x := by
  unfold setAdd
  split
  · exact h
  · exact List.mem_append_left _ h

lemma mem_of_mem_setAdd {s : List String} {u x : String} (h : u ∈ setAdd s x) :
    u ∈ s ∨ u = x := by
  unfold setAdd at h
  split at h
  · exact Or.inl h
  · rcases List.mem_append.mp h with h | h
    · exact Or.inl h
    · exact Or.inr (List.mem_singleton.mp h)

lemma mapGet_append_of_some {m : List (String × BuildRecord)} {k : String}
    {v : BuildRecord} (l2 : List (String × BuildRecord))
    (h : mapGet m k = some v) : mapGet (m ++ l2) k = some v := by
  induction m with
  | nil => simp [mapGet] at h
  | cons p rest ih =>
    obtain ⟨k', v'⟩ := p
    by_cases hk : k = k'
    · simp [mapGet, hk] at h ⊢
      exact h
    · simp [mapGet, hk] at h ⊢
      exact ih h

lemma mapGet_append_of_none {m : List (String × BuildRecord)} {k : String}
    (l2 : List (String × BuildRecord))
    (h : mapGet m k = none) : mapGet (m ++ l2) k = mapGet l2 k := by
  induction m with
  | nil => simp
  | cons p rest ih =>
    obtain ⟨k', v'⟩ := p
    by_cases hk : k = k'
    · simp [mapGet, hk] at h
    · simp [mapGet, hk] at h ⊢
      exact ih h

lemma mem_of_mapGet_some {m : List (String × BuildRecord)} {k : String}
    {v : BuildRecord} (h : mapGet m k = some v) : (k, v) ∈ m := by
  induction m with
  | nil => simp [mapGet] at h
  | cons p rest ih =>
    obtain ⟨k', v'⟩ := p
    by_cases hk : k = k'
    · simp [mapGet, hk] at h
      subst hk
      subst h
      exact List.mem_cons_self _ _
    · simp [mapGet, hk] at h
      exact List.mem_cons_of_mem _ (ih h)

lemma mapGet_none_not_key {m : List (String × BuildRecord)} {k : String}
    (h : mapGet m k = none) : k ∉ m.map Prod.fst := by
  induction m with
  | nil => simp
  | cons p rest ih =>
    obtain ⟨k', v'⟩ := p
    by_cases hk : k = k'
    · simp [mapGet, hk] at h
    · simp [mapGet, hk] at h
      simpa [hk] using ih h

lemma mapGet_singleton (k k' : String) (v : BuildRecord) :
    mapGet [(k, v)] k' = if k' = k then some v else none := by
  by_cases hk : k' = k <;> simp [mapGet, hk]

lemma mapSet_of_none {m : List (String × BuildRecord)} {k : String}
    (v : BuildRecord) (h : mapGet m k = none) :
    mapSet m k v = m ++ [(k, v)] := by
  simp [mapSet, h]

/-! ### Lemmas about the buildId scanner -/

lemma matchesAt_drop {l : List Char} (h : matchesAt l = true) :
    ∃ c cs, l.drop 10 = c :: cs ∧ isTokenChar c = true ∧
      (l.take 10).map Char.toLower = buildIdPat := by
  unfold matchesAt at h
  rw [Bool.and_eq_true] at h
  obtain ⟨h1, h2⟩ := h
  cases hd : l.drop 10 with
  | nil => rw [hd] at h2; simp at h2
  | cons c cs =>
    rw [hd] at h2
    exact ⟨c, cs, rfl, h2, by simpa using h1⟩

lemma scanBuildId_some_token :
    ∀ (l t : List Char), scanBuildId l = some t →
      t ≠ [] ∧ ∀ c ∈ t, isTokenChar c = true := by
  intro l
  induction l with
  | nil => intro t h; simp [scanBuildId] at h
  | cons a l' ih =>
    intro t h
    unfold scanBuildId at h
    split at h
    · rename_i hm
      obtain ⟨c, cs, hd, hc, _⟩ := matchesAt_drop hm
      rw [Option.some_inj] at h
      subst h
      rw [hd, List.takeWhile_cons_of_pos hc]
      refine ⟨List.cons_ne_nil _ _, ?_⟩
      intro x hx
      rcases List.mem_cons.mp hx with hx | hx
      · subst hx; exact hc
      · exact List.mem_takeWhile_imp hx
    · exact ih t h

lemma scanBuildId_some_of_match :
    ∀ (l : List Char), (∃ pre mid c r, l = pre ++ mid ++ (c :: r) ∧
        mid.map Char.toLower = buildIdPat ∧ isTokenChar c = true) →
      ∃ t, scanBuildId l = some t := by
  intro l
  induction l with
  | nil =>
    rintro ⟨pre, mid, c, r, h, -, -⟩
    have := congrArg List.length h
    simp at this
    omega
  | cons a l' ih =>
    rintro ⟨pre, mid, c, r, h, hmid, hc⟩
    by_cases hm : matchesAt (a :: l') = true
    · refine ⟨((a :: l').drop 10).takeWhile isTokenChar, ?_⟩
      unfold scanBuildId
      rw [if_pos hm]
    · have hmlen : mid.length = 10 := by
        have := congrArg List.length hmid
        simpa [buildIdPat] using this
      cases pre with
      | nil =>
        exfalso
        apply hm
        simp only [List.nil_append] at h
        unfold matchesAt
        rw [Bool.and_eq_true]
        constructor
        · rw [h, List.take_left' hmlen, hmid]
          simp
        · rw [h, List.drop_left' hmlen]
          exact hc
      | cons p pre' =>
        have h' : l' = pre' ++ mid ++ (c :: r) := by
          simpa using congrArg List.tail h
        obtain ⟨t, ht⟩ := ih ⟨pre', mid, c, r, h', hmid, hc⟩
        refine ⟨t, ?_⟩
        simp [scanBuildId, hm, ht]

lemma scanBuildId_some_match :
    ∀ (l t : List Char), scanBuildId l = some t →
      ∃ pre mid c r, l = pre ++ mid ++ (c :: r) ∧
        mid.map Char.toLower = buildIdPat ∧ isTokenChar c = true := by
  intro l
  induction l with
  | nil => intro t hs; simp [scanBuildId] at hs
  | cons a l' ih =>
    intro t hs
    unfold scanBuildId at hs
    split at hs
    · rename_i hm
      obtain ⟨c, cs, hd, hc, hp⟩ := matchesAt_drop hm
      refine ⟨[], (a :: l').take 10, c, cs, ?_, hp, hc⟩
      rw [List.nil_append, ← hd, List.take_append_drop]
    · obtain ⟨pre, mid, c, r, h1, h2, h3⟩ := ih t hs
      exact ⟨a :: pre, mid, c, r, by simp [h1], h2, h3⟩

lemma extractBuildId_of_no_match {s : String} (h : ¬ specHasBuildIdMatch s) :
    extractBuildId s = "unknown" := by
  unfold extractBuildId
  cases hs : scanBuildId s.toList with
  | none => rfl
  | some t => exact absurd (scanBuildId_some_match s.toList t hs) h

lemma extractBuildId_token {s : String} (h : specHasBuildIdMatch s) :
    (extractBuildId s).toList ≠ [] ∧
      ∀ c ∈ (extractBuildId s).toList, isTokenChar c = true := by
  obtain ⟨t, ht⟩ := scanBuildId_some_of_match s.toList h
  have := scanBuildId_some_token s.toList t ht
  unfold extractBuildId
  rw [ht]
  exact this

lemma extractBuildId_shape (s : String) : buildIdShape (extractBuildId s) := by
  unfold extractBuildId
  cases hs : scanBuildId s.toList with
  | none => exact Or.inl rfl
  | some t =>
    have := scanBuildId_some_token s.toList t hs
    exact Or.inr this

/-! ### State-transition lemmas for the handlers -/

lemma registerDevice_state (st : ServerState) (u n : Option String) (e : ExecResult) :
    (registerDevice st u n e).1.pendingBuilds = st.pendingBuilds ∧
    ((registerDevice st u n e).1.registeredDevices = st.registeredDevices ∨
      ∃ x, x.isEmpty = false ∧
        (registerDevice st u n e).1.registeredDevices =
          setAdd st.registeredDevices x) := by
  cases u with
  | none => exact ⟨rfl, Or.inl rfl⟩
  | some s =>
    unfold registerDevice
    dsimp only
    by_cases h1 : s.isEmpty = true
    · rw [if_pos h1]
      exact ⟨rfl, Or.inl rfl⟩
    · have h1' : s.isEmpty = false := by simpa using h1
      rw [if_neg h1]
      by_cases h2 : s ∈ st.registeredDevices
      · rw [if_pos h2]
        exact ⟨rfl, Or.inl rfl⟩
      · rw [if_neg h2]
        cases e with
        | ok o se => exact ⟨rfl, Or.inr ⟨s, h1', rfl⟩⟩
        | err m se =>
          dsimp only
          by_cases h3 :
              (jsIncludes m "already registered" || jsIncludes m "already exists") = true
          · rw [if_pos h3]
            exact ⟨rfl, Or.inr ⟨s, h1', rfl⟩⟩
          · rw [if_neg h3]
            exact ⟨rfl, Or.inl rfl⟩

lemma triggerBuild_state (st : ServerState) (u : Option String) (e : ExecResult)
    (t : String) :
    (triggerBuild st u e t).1.registeredDevices = st.registeredDevices ∧
    ((triggerBuild st u e t).1.pendingBuilds = st.pendingBuilds ∨
      ∃ s r, s.isEmpty = false ∧ mapGet st.pendingBuilds s = none ∧
        r.status = "pending" ∧ buildIdShape r.buildId ∧
        (triggerBuild st u e t).1.pendingBuilds = st.pendingBuilds ++ [(s, r)]) := by
  cases u with
  | none => exact ⟨rfl, Or.inl rfl⟩
  | some s =>
    unfold triggerBuild
    dsimp only
    by_cases h1 : s.isEmpty = true
    · rw [if_pos h1]
      exact ⟨rfl, Or.inl rfl⟩
    · have h1' : s.isEmpty = false := by simpa using h1
      rw [if_neg h1]
      cases hg : mapGet st.pendingBuilds s with
      | some info => exact ⟨rfl, Or.inl rfl⟩
      | none =>
        cases e with
        | ok stdout se =>
          refine ⟨rfl, Or.inr ⟨s, ⟨extractBuildId stdout, "pending", t⟩, h1', hg,
            rfl, extractBuildId_shape stdout, ?_⟩⟩
          exact mapSet_of_none _ hg
        | err m se => exact ⟨rfl, Or.inl rfl⟩

lemma getStatus_state (st : ServerState) (u : String) : (getStatus st u).1 = st := by
  unfold getStatus
  split <;> rfl

lemma step_registered_mono (st : ServerState) (op : Op) {u : String}
    (h : u ∈ st.registeredDevices) : u ∈ (step st op).registeredDevices := by
  cases op with
  | register u' n e =>
    show u ∈ (registerDevice st u' n e).1.registeredDevices
    rcases (registerDevice_state st u' n e).2 with h2 | ⟨x, _, h2⟩
    · rw [h2]; exact h
    · rw [h2]; exact mem_setAdd_of_mem x h
  | trigger u' e t =>
    show u ∈ (triggerBuild st u' e t).1.registeredDevices
    rw [(triggerBuild_state st u' e t).1]
    exact h
  | status u' =>
    show u ∈ (getStatus st u').1.registeredDevices
    rw [getStatus_state]
    exact h

lemma step_mapGet_mono (st : ServerState) (op : Op) {k : String} {v : BuildRecord}
    (h : mapGet st.pendingBuilds k = some v) :
    mapGet (step st op).pendingBuilds k = some v := by
  cases op with
  | register u n e =>
    show mapGet (registerDevice st u n e).1.pendingBuilds k = some v
    rw [(registerDevice_state st u n e).1]
    exact h
  | trigger u e t =>
    show mapGet (triggerBuild st u e t).1.pendingBuilds k = some v
    rcases (triggerBuild_state st u e t).2 with h2 | ⟨s, r, _, _, _, _, h2⟩
    · rw [h2]; exact h
    · rw [h2]; exact mapGet_append_of_some _ h
  | status u =>
    show mapGet (getStatus st u).1.pendingBuilds k = some v
    rw [getStatus_state]
    exact h

lemma run_registered_mono (ops : List Op) {st : ServerState} {u : String}
    (h : u ∈ st.registeredDevices) : u ∈ (run st ops).registeredDevices := by
  induction ops generalizing st with
  | nil => exact h
  | cons op rest ih => exact ih (step_registered_mono st op h)

lemma run_mapGet_mono (ops : List Op) {st : ServerState} {k : String}
    {v : BuildRecord} (h : mapGet st.pendingBuilds k = some v) :
    mapGet (run st ops).pendingBuilds k = some v := by
  induction ops generalizing st with
  | nil => exact h
  | cons op rest ih => exact ih (step_mapGet_mono st op h)

lemma run_append (st : ServerState) (ops1 ops2 : List Op) :
    run st (ops1 ++ ops2) = run (run st ops1) ops2 :=
  List.foldl_append _ _ _ _

lemma WF_step {st : ServerState} (hWF : WF st) (op : Op) : WF (step st op) := by
  obtain ⟨hreg, hkey, hnod, hrec⟩ := hWF
  cases op with
  | register u n e =>
    show WF (registerDevice st u n e).1
    obtain ⟨hp, hr⟩ := registerDevice_state st u n e
    refine ⟨?_, ?_, ?_, ?_⟩
    · intro y hy
      rcases hr with hr | ⟨x, hx, hr⟩
      · rw [hr] at hy; exact hreg y hy
      · rw [hr] at hy
        rcases mem_of_mem_setAdd hy with hy | hy
        · exact hreg y hy
        · subst hy; exact hx
    · intro p2 hp2; rw [hp] at hp2; exact hkey p2 hp2
    · rw [hp]; exact hnod
    · intro p2 hp2; rw [hp] at hp2; exact hrec p2 hp2
  | trigger u e t =>
    show WF (triggerBuild st u e t).1
    obtain ⟨hr, hp⟩ := triggerBuild_state st u e t
    rcases hp with hp | ⟨s, r, hs, hnone, hst, hshape, hp⟩
    · refine ⟨?_, ?_, ?_, ?_⟩
      · intro y hy; rw [hr] at hy; exact hreg y hy
      · intro p2 hp2; rw [hp] at hp2; exact hkey p2 hp2
      · rw [hp]; exact hnod
      · intro p2 hp2; rw [hp] at hp2; exact hrec p2 hp2
    · refine ⟨?_, ?_, ?_, ?_⟩
      · intro y hy; rw [hr] at hy; exact hreg y hy
      · intro p2 hp2
        rw [hp] at hp2
        rcases List.mem_append.mp hp2 with h2 | h2
        · exact hkey p2 h2
        · rw [List.mem_singleton.mp h2]; exact hs
      · rw [hp, List.map_append, List.nodup_append]
        refine ⟨hnod, List.nodup_singleton _, ?_⟩
        simp only [List.map_singleton, List.disjoint_singleton]
        exact mapGet_none_not_key hnone
      · intro p2 hp2
        rw [hp] at hp2
        rcases List.mem_append.mp hp2 with h2 | h2
        · exact hrec p2 h2
        · rw [List.mem_singleton.mp h2]
          exact ⟨hst, hshape⟩
  | status u =>
    show WF (getStatus st u).1
    rw [getStatus_state]
    exact ⟨hreg, hkey, hnod, hrec⟩

lemma WF_run (ops : List Op) : WF (run initialState ops) := by
  have h0 : WF initialState := by
    refine ⟨?_, ?_, ?_, ?_⟩ <;> simp [initialState, WF]
  suffices h : ∀ st, WF st → WF (run st ops) from h _ h0
  induction ops with
  | nil => exact fun st h => h
  | cons op rest ih => exact fun st h => ih (step st op) (WF_step h op)

/-- C4: a register or trigger request whose identifier field is absent or
the empty string is answered with the 400 validation error, invokes no
subprocess, and leaves both collections unchanged. -/
theorem validation_rejects_blank_udid (st : ServerState) (n : Option String)
    (e : ExecResult) (t : String) (udid : Option String)
    (h : udid = none ∨ udid = some "") :
    registerDevice st udid n e = (st, .validationError, none) ∧
    triggerBuild st udid e t = (st, .validationError, false) ∧
    RegisterResponse.httpStatus .validationError = 400 ∧
    TriggerResponse.httpStatus .validationError = 400 := by
  rcases h with h | h <;> subst h <;>
    exact ⟨rfl, rfl, rfl, rfl⟩

/-- Witness for C4 at a concrete state and the empty-string identifier. -/
theorem validation_rejects_blank_udid_witness :
    registerDevice initialState (some "") none (.ok "out" "") =
      (initialState, .validationError, none) ∧
    triggerBuild initialState (some "") (.ok "out" "") "2024-01-01" =
      (initialState, .validationError, false) :=
  ⟨(validation_rejects_blank_udid initialState none (.ok "out" "")
      "2024-01-01" (some "") (Or.inr rfl)).1,
   (validation_rejects_blank_udid initialState none (.ok "out" "")
      "2024-01-01" (some "") (Or.inr rfl)).2.1⟩

/-- C9: every manifest response — found, absent (404, plain-text body) or
unreadable (500) — carries exactly the five fixed header/value pairs,
because they are set before any body is written. -/
theorem manifest_five_headers (fe : Bool) (rr : Except String String) :
    (manifestHandler fe rr).headers =
      [("Content-Type", "application/xml; charset=utf-8"),
       ("Cache-Control", "no-cache, no-store, must-revalidate"),
       ("Pragma", "no-cache"),
       ("Expires", "0"),
       ("Access-Control-Allow-Origin", "*")] ∧
    (fe = false → (manifestHandler fe rr).status = 404 ∧
      (manifestHandler fe rr).body = "manifest.plist not found") ∧
    (∀ m, rr = Except.error m → fe = true →
      (manifestHandler fe rr).status = 500) := by
  cases fe <;> cases rr <;>
    simp [manifestHandler, manifestHeaders]

/-- Witness for C9: the absent-file branch at concrete inputs. -/
theorem manifest_five_headers_witness :
    (manifestHandler false (.ok "xml")).status = 404 ∧
    (manifestHandler true (.error "EACCES")).status = 500 :=
  ⟨((manifest_five_headers false (.ok "xml")).2.1 rfl).1,
   (manifest_five_headers true (.error "EACCES")).2.2 "EACCES" rfl rfl⟩

lemma registerDevice_success_mem {st : ServerState} {u : String} {n : Option String}
    {e : ExecResult}
    (h : RegisterResponse.success (registerDevice st (some u) n e).2.1 = true) :
    u.isEmpty = false ∧ u ∈ (registerDevice st (some u) n e).1.registeredDevices := by
  unfold registerDevice at h ⊢
  dsimp only at h ⊢
  by_cases h1 : u.isEmpty = true
  · rw [if_pos h1] at h
    exact absurd h (by simp [RegisterResponse.success])
  · have h1' : u.isEmpty = false := by simpa using h1
    rw [if_neg h1] at h ⊢
    by_cases h2 : u ∈ st.registeredDevices
    · rw [if_pos h2] at h ⊢
      exact ⟨h1', h2⟩
    · rw [if_neg h2] at h ⊢
      cases e with
      | ok o se => exact ⟨h1', mem_setAdd_self _ _⟩
      | err m se =>
        dsimp only at h ⊢
        by_cases h3 :
            (jsIncludes m "already registered" || jsIncludes m "already exists") = true
        · rw [if_pos h3]
          exact ⟨h1', mem_setAdd_self _ _⟩
        · rw [if_neg h3] at h
          exact absurd h (by simp [RegisterResponse.success])

lemma registerDevice_cases (st : ServerState) (u n : Option String) (e : ExecResult) :
    (registerDevice st u n e).1 = st ∨
      RegisterResponse.httpStatus (registerDevice st u n e).2.1 = 200 := by
  cases u with
  | none => exact Or.inl rfl
  | some s =>
    unfold registerDevice
    dsimp only
    by_cases h1 : s.isEmpty = true
    · rw [if_pos h1]; exact Or.inl rfl
    · rw [if_neg h1]
      by_cases h2 : s ∈ st.registeredDevices
      · rw [if_pos h2]; exact Or.inl rfl
      · rw [if_neg h2]
        cases e with
        | ok o se => exact Or.inr rfl
        | err m se =>
          dsimp only
          by_cases h3 :
              (jsIncludes m "already registered" || jsIncludes m "already exists") = true
          · rw [if_pos h3]; exact Or.inr rfl
          · rw [if_neg h3]; exact Or.inl rfl

lemma triggerBuild_cases (st : ServerState) (u : Option String) (e : ExecResult)
    (t : String) :
    (triggerBuild st u e t).1 = st ∨
      TriggerResponse.httpStatus (triggerBuild st u e t).2.1 = 200 := by
  cases u with
  | none => exact Or.inl rfl
  | some s =>
    unfold triggerBuild
    dsimp only
    by_cases h1 : s.isEmpty = true
    · rw [if_pos h1]; exact Or.inl rfl
    · rw [if_neg h1]
      cases hg : mapGet st.pendingBuilds s with
      | some info => exact Or.inl rfl
      | none =>
        cases e with
        | ok stdout se => exact Or.inr rfl
        | err m se => exact Or.inl rfl

/-- C6: the trigger handler extracts `buildId` from the tool's stdout by a
case-insensitive match of `build ID: <token>` (token = alphanumerics and
hyphens): when no such match exists the extracted value is the sentinel
`"unknown"`; when a match exists it is a nonempty token; and on a fresh
trigger the stored and returned `buildId` is exactly this extraction. -/
theorem extract_build_id_spec (s : String) :
    (¬ specHasBuildIdMatch s → extractBuildId s = "unknown") ∧
    (specHasBuildIdMatch s → (extractBuildId s).toList ≠ [] ∧
      ∀ c ∈ (extractBuildId s).toList, isTokenChar c = true) ∧
    (∀ st u se t, u.isEmpty = false → mapGet st.pendingBuilds u = none →
      triggerBuild st (some u) (.ok s se) t =
        ({ st with pendingBuilds :=
            st.pendingBuilds ++ [(u, ⟨extractBuildId s, "pending", t⟩)] },
          .triggeredResp (extractBuildId s) "pending", true)) := by
  refine ⟨extractBuildId_of_no_match, extractBuildId_token, ?_⟩
  intro st u se t hu hnone
  unfold triggerBuild
  dsimp only
  rw [if_neg (by simp [hu]), hnone]
  dsimp only
  rw [mapSet_of_none _ hnone]

/-- Witness for C6: a stdout with no match yields `"unknown"`; a stdout
containing `Build ID: 7f3a-22` yields a nonempty token. -/
theorem extract_build_id_spec_witness :
    extractBuildId "no id" = "unknown" ∧
    (extractBuildId "Build ID: 7f3a-22").toList ≠ [] ∧
    (∀ c ∈ (extractBuildId "Build ID: 7f3a-22").toList, isTokenChar c = true) ∧
    triggerBuild initialState (some "X") (.ok "Build ID: 7f3a-22" "") "t1" =
      ({ initialState with pendingBuilds :=
          [("X", ⟨extractBuildId "Build ID: 7f3a-22", "pending", "t1"⟩)] },
        .triggeredResp (extractBuildId "Build ID: 7f3a-22") "pending", true) :=
  ⟨(extract_build_id_spec "no id").1 (by
      intro hm
      obtain ⟨t, ht⟩ := scanBuildId_some_of_match _ hm
      have hn : scanBuildId ("no id".toList) = none := by decide
      rw [hn] at ht
      exact Option.noConfusion ht),
   ((extract_build_id_spec "Build ID: 7f3a-22").2.1 ⟨[], "Build ID: ".toList, '7',
      "f3a-22".toList, by decide, by decide, by decide⟩).1,
   ((extract_build_id_spec "Build ID: 7f3a-22").2.1 ⟨[], "Build ID: ".toList, '7',
      "f3a-22".toList, by decide, by decide, by decide⟩).2,
   (extract_build_id_spec "Build ID: 7f3a-22").2.2 initialState "X" "" "t1"
     (by decide) rfl⟩

/-- C7: the build-status query is a pure read: the state is unchanged, the
HTTP status is always 200, an unknown identifier gets `success=false`
(never a 404), and a known identifier gets the stored record's
`buildId`, `status` and `startedAt` verbatim. -/
theorem status_pure_read (st : ServerState) (u : String) :
    (getStatus st u).1 = st ∧
    StatusResponse.httpStatus (getStatus st u).2 = 200 ∧
    (mapGet st.pendingBuilds u = none →
      (getStatus st u).2 = .notFoundResp ∧
      StatusResponse.success (getStatus st u).2 = false) ∧
    (∀ info, mapGet st.pendingBuilds u = some info →
      (getStatus st u).2 = .foundResp info.buildId info.status info.startedAt) := by
  refine ⟨getStatus_state st u, rfl, ?_, ?_⟩
  · intro h
    unfold getStatus
    rw [h]
    exact ⟨rfl, rfl⟩
  · intro info h
    unfold getStatus
    rw [h]

/-- Witness for C7: the empty table answers `success=false` for `"X"`, and
after one trigger the stored record is returned verbatim. -/
theorem status_pure_read_witness :
    (getStatus initialState "X").2 = .notFoundResp ∧
    (getStatus (run initialState [.trigger (some "X") (.ok "no id" "") "t1"]) "X").2 =
      .foundResp "unknown" "pending" "t1" :=
  ⟨((status_pure_read initialState "X").2.2.1 rfl).1,
   (status_pure_read (run initialState [.trigger (some "X") (.ok "no id" "") "t1"])
      "X").2.2.2 ⟨"unknown", "pending", "t1"⟩ (by decide)⟩

/-- C1: an identifier already in the registered set (after any request
history) makes register return success with `alreadyRegistered=true` and
no subprocess invocation; and after any successful register call, a
second call with the same identifier does exactly that. -/
theorem register_already_member (ops : List Op) (u : String) (n : Option String)
    (e : ExecResult) (h : u ∈ (run initialState ops).registeredDevices) :
    registerDevice (run initialState ops) (some u) n e =
      (run initialState ops, .alreadyRegisteredResp u, none) ∧
    RegisterResponse.success (.alreadyRegisteredResp u) = true ∧
    RegisterResponse.alreadyRegistered (.alreadyRegisteredResp u) = some true ∧
    (∀ st n1 e1 n2 e2,
      RegisterResponse.success (registerDevice st (some u) n1 e1).2.1 = true →
      registerDevice (registerDevice st (some u) n1 e1).1 (some u) n2 e2 =
        ((registerDevice st (some u) n1 e1).1, .alreadyRegisteredResp u, none)) := by
  have hne : u.isEmpty = false := (WF_run ops).1 u h
  refine ⟨?_, rfl, rfl, ?_⟩
  · unfold registerDevice
    dsimp only
    rw [if_neg (by simp [hne]), if_pos h]
  · intro st n1 e1 n2 e2 hsucc
    obtain ⟨h1', hmem⟩ := registerDevice_success_mem hsucc
    generalize hst : (registerDevice st (some u) n1 e1).1 = st2 at hmem ⊢
    unfold registerDevice
    dsimp only
    rw [if_neg (by simp [h1']), if_pos hmem]

/-- Witness for C1: after registering `ABCD1234`, a second call returns
the already-registered success without consuming the failing oracle. -/
theorem register_already_member_witness :
    registerDevice (run initialState [.register (some "ABCD1234") none (.ok "ok" "")])
        (some "ABCD1234") none (.err "boom" "x") =
      (run initialState [.register (some "ABCD1234") none (.ok "ok" "")],
        .alreadyRegisteredResp "ABCD1234", none) :=
  (register_already_member [.register (some "ABCD1234") none (.ok "ok" "")]
    "ABCD1234" none (.err "boom" "x") (by decide)).1

/-- C2: an identifier with an existing build record (after any request
history) makes trigger-build return that record's `buildId` and `status`
as an already-in-progress success, with no subprocess invocation, no
state change, and no duplicate keys in the table. -/
theorem trigger_already_pending (ops : List Op) (u : String) (info : BuildRecord)
    (e : ExecResult) (t : String)
    (h : mapGet (run initialState ops).pendingBuilds u = some info) :
    triggerBuild (run initialState ops) (some u) e t =
      (run initialState ops, .alreadyPendingResp info.buildId info.status, false) ∧
    TriggerResponse.success (.alreadyPendingResp info.buildId info.status) = true ∧
    ((run initialState ops).pendingBuilds.map Prod.fst).Nodup := by
  obtain ⟨hreg, hkey, hnod, hrec⟩ := WF_run ops
  have hne : u.isEmpty = false := hkey (u, info) (mem_of_mapGet_some h)
  refine ⟨?_, rfl, hnod⟩
  unfold triggerBuild
  dsimp only
  rw [if_neg (by simp [hne]), h]

/-- Witness for C2: a second trigger for `X` returns the stored record and
leaves the state alone even with a failing oracle. -/
theorem trigger_already_pending_witness :
    triggerBuild (run initialState [.trigger (some "X") (.ok "no id" "") "t1"])
        (some "X") (.err "boom" "") "t2" =
      (run initialState [.trigger (some "X") (.ok "no id" "") "t1"],
        .alreadyPendingResp "unknown" "pending", false) :=
  (trigger_already_pending [.trigger (some "X") (.ok "no id" "") "t1"] "X"
    ⟨"unknown", "pending", "t1"⟩ (.err "boom" "") "t2" (by decide)).1

/-- C3: a subprocess failure that is not absorbed as already-registered
makes register answer the 500 tool error without touching the set, and
makes trigger-build answer the 500 tool error without inserting a record;
in general any 500 response from either handler leaves the state exactly
unchanged, so a retry is possible. -/
theorem error_path_state_unchanged (st : ServerState) (u : String) (n : Option String)
    (msg se t : String)
    (hne : u.isEmpty = false) (hmem : u ∉ st.registeredDevices)
    (habs : (jsIncludes msg "already registered" || jsIncludes msg "already exists") = false)
    (hpend : mapGet st.pendingBuilds u = none) :
    registerDevice st (some u) n (.err msg se) =
      (st, .toolErrorResp msg se, some (deviceNameSafe n u)) ∧
    RegisterResponse.httpStatus (.toolErrorResp msg se) = 500 ∧
    triggerBuild st (some u) (.err msg se) t = (st, .toolErrorResp msg se, true) ∧
    TriggerResponse.httpStatus (.toolErrorResp msg se) = 500 ∧
    (∀ st2 u2 n2 e2,
      RegisterResponse.httpStatus (registerDevice st2 u2 n2 e2).2.1 = 500 →
      (registerDevice st2 u2 n2 e2).1 = st2) ∧
    (∀ st2 u2 e2 t2,
      TriggerResponse.httpStatus (triggerBuild st2 u2 e2 t2).2.1 = 500 →
      (triggerBuild st2 u2 e2 t2).1 = st2) := by
  refine ⟨?_, rfl, ?_, rfl, ?_, ?_⟩
  · unfold registerDevice
    dsimp only
    rw [if_neg (by simp [hne]), if_neg hmem]
    rw [if_neg (by simp [habs])]
  · unfold triggerBuild
    dsimp only
    rw [if_neg (by simp [hne]), hpend]
  · intro st2 u2 n2 e2 h5
    rcases registerDevice_cases st2 u2 n2 e2 with h6 | h6
    · exact h6
    · rw [h5] at h6
      exact absurd h6 (by decide)
  · intro st2 u2 e2 t2 h5
    rcases triggerBuild_cases st2 u2 e2 t2 with h6 | h6
    · exact h6
    · rw [h5] at h6
      exact absurd h6 (by decide)

/-- Witness for C3: a plain failure message surfaces as a 500 tool error
from both handlers, with the initial state unchanged. -/
theorem error_path_state_unchanged_witness :
    registerDevice initialState (some "U1") none (.err "network failure" "se") =
      (initialState, .toolErrorResp "network failure" "se",
        some (deviceNameSafe none "U1")) ∧
    triggerBuild initialState (some "U1") (.err "network failure" "se") "t1" =
      (initialState, .toolErrorResp "network failure" "se", true) :=
  ⟨(error_path_state_unchanged initialState "U1" none "network failure" "se" "t1"
      (by decide) (by decide) (by decide) rfl).1,
   (error_path_state_unchanged initialState "U1" none "network failure" "se" "t1"
      (by decide) (by decide) (by decide) rfl).2.2.1⟩

/-- C5: a registration subprocess failure whose message contains
`already registered` or `already exists` is absorbed: the identifier is
added to the set and the response is a success with
`alreadyRegistered=true`; any other failure message surfaces as the 500
tool error. -/
theorem absorbed_already_message (st : ServerState) (u : String) (n : Option String)
    (msg se : String) (hne : u.isEmpty = false) (hmem : u ∉ st.registeredDevices) :
    ((jsIncludes msg "already registered" || jsIncludes msg "already exists") = true →
      registerDevice st (some u) n (.err msg se) =
        ({ st with registeredDevices := setAdd st.registeredDevices u },
          .absorbedResp u, some (deviceNameSafe n u)) ∧
      u ∈ (registerDevice st (some u) n (.err msg se)).1.registeredDevices ∧
      RegisterResponse.success (.absorbedResp u) = true ∧
      RegisterResponse.alreadyRegistered (.absorbedResp u) = some true) ∧
    ((jsIncludes msg "already registered" || jsIncludes msg "already exists") = false →
      registerDevice st (some u) n (.err msg se) =
        (st, .toolErrorResp msg se, some (deviceNameSafe n u)) ∧
      RegisterResponse.httpStatus (.toolErrorResp msg se) = 500) := by
  constructor
  · intro h3
    have heq : registerDevice st (some u) n (.err msg se) =
        ({ st with registeredDevices := setAdd st.registeredDevices u },
          .absorbedResp u, some (deviceNameSafe n u)) := by
      unfold registerDevice
      dsimp only
      rw [if_neg (by simp [hne]), if_neg hmem]
      rw [if_pos h3]
    refine ⟨heq, ?_, rfl, rfl⟩
    rw [heq]
    exact mem_setAdd_self _ _
  · intro h3
    refine ⟨?_, rfl⟩
    unfold registerDevice
    dsimp only
    rw [if_neg (by simp [hne]), if_neg hmem]
    rw [if_neg (by simp [h3])]

/-- Witness for C5: an `already registered` message is absorbed as
success, another message is surfaced as a 500 tool error. -/
theorem absorbed_already_message_witness :
    registerDevice initialState (some "U2") none
        (.err "Device already registered on account" "se") =
      ({ initialState with
          registeredDevices := setAdd initialState.registeredDevices "U2" },
        .absorbedResp "U2", some (deviceNameSafe none "U2")) ∧
    registerDevice initialState (some "U2") none (.err "other failure" "se") =
      (initialState, .toolErrorResp "other failure" "se",
        some (deviceNameSafe none "U2")) :=
  ⟨((absorbed_already_message initialState "U2" none
      "Device already registered on account" "se" (by decide) (by decide)).1
      (by decide)).1,
   ((absorbed_already_message initialState "U2" none "other failure" "se"
      (by decide) (by decide)).2 (by decide)).1⟩

/-- C8: state is monotonic under any continuation of the request
sequence: a registered identifier stays registered, and an existing
build record keeps its exact value (never removed, never overwritten). -/
theorem state_monotonic (st : ServerState) (ops more : List Op) (u k : String)
    (v : BuildRecord) :
    (u ∈ (run st ops).registeredDevices →
      u ∈ (run st (ops ++ more)).registeredDevices) ∧
    (mapGet (run st ops).pendingBuilds k = some v →
      mapGet (run st (ops ++ more)).pendingBuilds k = some v) := by
  rw [run_append]
  exact ⟨fun h => run_registered_mono more h, fun h => run_mapGet_mono more h⟩

/-- Witness for C8: after further requests, `A` stays registered and the
record for `X` is unchanged. -/
theorem state_monotonic_witness :
    "A" ∈ (run initialState
        ([.register (some "A") none (.ok "done" ""),
          .trigger (some "X") (.ok "no id" "") "t1"] ++
         [.trigger (some "X") (.err "boom" "") "t2", .status "X",
          .register (some "A") none (.err "boom" "")])).registeredDevices ∧
    mapGet (run initialState
        ([.register (some "A") none (.ok "done" ""),
          .trigger (some "X") (.ok "no id" "") "t1"] ++
         [.trigger (some "X") (.err "boom" "") "t2", .status "X",
          .register (some "A") none (.err "boom" "")])).pendingBuilds "X" =
      some ⟨"unknown", "pending", "t1"⟩ :=
  ⟨(state_monotonic initialState
      [.register (some "A") none (.ok "done" ""),
       .trigger (some "X") (.ok "no id" "") "t1"]
      [.trigger (some "X") (.err "boom" "") "t2", .status "X",
       .register (some "A") none (.err "boom" "")]
      "A" "X" ⟨"unknown", "pending", "t1"⟩).1 (by decide),
   (state_monotonic initialState
      [.register (some "A") none (.ok "done" ""),
       .trigger (some "X") (.ok "no id" "") "t1"]
      [.trigger (some "X") (.err "boom" "") "t2", .status "X",
       .register (some "A") none (.err "boom" "")]
      "A" "X" ⟨"unknown", "pending", "t1"⟩).2 (by decide)⟩

/-- C10: every record ever stored in the build table has status
`"pending"` and a `buildId` that is `"unknown"` or a nonempty
alphanumeric/hyphen token, and every success response from trigger-build
and build-status reports such a pair. -/
theorem records_always_pending (ops : List Op) :
    (∀ k v, mapGet (run initialState ops).pendingBuilds k = some v →
      v.status = "pending" ∧ buildIdShape v.buildId) ∧
    (∀ u e t,
      TriggerResponse.pendingShaped (triggerBuild (run initialState ops) u e t).2.1) ∧
    (∀ u2, StatusResponse.pendingShaped (getStatus (run initialState ops) u2).2) := by
  obtain ⟨hreg, hkey, hnod, hrec⟩ := WF_run ops
  refine ⟨?_, ?_, ?_⟩
  · intro k v h
    exact hrec (k, v) (mem_of_mapGet_some h)
  · intro u e t
    cases u with
    | none => exact trivial
    | some s =>
      unfold triggerBuild
      dsimp only
      by_cases h1 : s.isEmpty = true
      · rw [if_pos h1]
        exact trivial
      · rw [if_neg h1]
        cases hg : mapGet (run initialState ops).pendingBuilds s with
        | some info => exact hrec (s, info) (mem_of_mapGet_some hg)
        | none =>
          cases e with
          | ok stdout se => exact ⟨rfl, extractBuildId_shape stdout⟩
          | err m se => exact trivial
  · intro u2
    unfold getStatus
    cases hg : mapGet (run initialState ops).pendingBuilds u2 with
    | none => exact trivial
    | some info => exact hrec (u2, info) (mem_of_mapGet_some hg)

/-- Witness for C10: the record stored by a trigger whose stdout contains
`Build ID: 7f3a-22` is pending with a well-shaped `buildId`. -/
theorem records_always_pending_witness :
    (BuildRecord.mk "7f3a-22" "pending" "t1").status = "pending" ∧
    buildIdShape (BuildRecord.mk "7f3a-22" "pending" "t1").buildId :=
  (records_always_pending [.trigger (some "X") (.ok "Build ID: 7f3a-22" "") "t1"]).1
    "X" ⟨"7f3a-22", "pending", "t1"⟩ (by decide)

end ClerkyServer
